import Mathlib

/-!
Shallow embedding of the Streamlit chat front-end in `src/app.py`:
the session store of chat turns, the per-turn request assembly
(model id, content parts, generation config), the defensive text and
grounding-URL extraction from a provider response, and the
success/failure handling around the single provider call.
-/

namespace App

/-- A provider-response content part; `part.text` may be absent (`getattr(part, "text", None)`). -/
structure Part where
  text : Option String
  deriving DecidableEq

/-- The `web` attribute of a grounding chunk; its `uri` may be absent. -/
structure Web where
  uri : Option String
  deriving DecidableEq

/-- The `maps` attribute of a grounding chunk; its `uri` may be absent. -/
structure Maps where
  uri : Option String
  deriving DecidableEq

/-- One grounding chunk: optional `web` and `maps` sub-objects. -/
structure GroundingChunk where
  web : Option Web
  maps : Option Maps
  deriving DecidableEq

/-- Grounding metadata of a candidate: an optional list of chunks. -/
structure GroundingMetadata where
  grounding_chunks : Option (List GroundingChunk)
  deriving DecidableEq

/-- Candidate content: an optional list of parts (`content.parts` may be `None` or empty). -/
structure Content where
  parts : Option (List Part)
  deriving DecidableEq

/-- One response candidate: optional content and optional grounding metadata. -/
structure Candidate where
  content : Option Content
  grounding_metadata : Option GroundingMetadata
  deriving DecidableEq

/-- A provider response: an optional candidate list (`getattr(response, "candidates", None)`). -/
structure Response where
  candidates : Option (List Candidate)
  deriving DecidableEq

/-- One step of the text-accumulation loop (app.py lines 203-206):
`text = getattr(part, "text", None); if text: text_output += text`.
Python truthiness of a string is: not `None` and not `""`. -/
def textStep (acc : String) (p : Part) : String :=
  match p.text with
  | Option.some s => if s.isEmpty then acc else acc ++ s
  | Option.none => acc

/-- The fixed placeholder substituted when no text was concatenated (app.py line 209). -/
def placeholderText : String := "_No textual response returned._"

/-- Safe text extraction, app.py lines 195-209: walk the first candidate
(guarded by `if candidates:`), its content (`if content and content.parts:`),
accumulate all truthy text fragments in order, and substitute the placeholder
when the accumulator stayed empty (`if not text_output:`). -/
def text_output (response : Response) : String :=
  let t : String :=
    match response.candidates with
    | Option.some (c :: _) =>
        match c.content with
        | Option.some content =>
            match content.parts with
            | Option.some ps => if ps.isEmpty then "" else ps.foldl textStep ""
            | Option.none => ""
        | Option.none => ""
    | _ => ""
  if t.isEmpty then placeholderText else t

/-- One step of the URL-accumulation loop (app.py lines 226-232): append the
web URI if truthy, then the maps URI if truthy. -/
def chunkStep (acc : List String) (chunk : GroundingChunk) : List String :=
  let acc1 : List String :=
    match chunk.web with
    | Option.some w =>
        match w.uri with
        | Option.some u => if u.isEmpty then acc else acc ++ [u]
        | Option.none => acc
    | Option.none => acc
  match chunk.maps with
  | Option.some m =>
      match m.uri with
      | Option.some u => if u.isEmpty then acc1 else acc1 ++ [u]
      | Option.none => acc1
  | Option.none => acc1

/-- Safe grounding-URL extraction, app.py lines 216-232: grounding metadata of
the first candidate (if any), then for each chunk the web URI and the maps URI
when present. -/
def extract_urls (response : Response) : List String :=
  let grounding_meta : Option GroundingMetadata :=
    match response.candidates with
    | Option.some (c :: _) => c.grounding_metadata
    | _ => Option.none
  match grounding_meta with
  | Option.some gm =>
      match gm.grounding_chunks with
      | Option.some chunks =>
          if chunks.isEmpty then [] else chunks.foldl chunkStep []
      | Option.none => []
  | Option.none => []

/-- The stored `urls` field of the assistant message, app.py line 238:
`list(set(urls)) if urls else None`. A Python `set` loses order, so the
stored value is modelled by the canonical duplicate-free representative
`List.dedup` (membership-equal to the scanned list). -/
def stored_urls (response : Response) : Option (List String) :=
  let urls := extract_urls response
  if urls.isEmpty then Option.none else Option.some urls.dedup

/-- A tool declaration (app.py lines 136-148). -/
inductive Tool where
  | googleSearch
  | googleMaps
  deriving DecidableEq

/-- Tool-list assembly from the grounding selector string (app.py lines 136-148). -/
def build_tools (grounding : String) : Option (List Tool) :=
  if grounding = "Google Search" then Option.some [Tool.googleSearch]
  else if grounding = "Google Maps" then Option.some [Tool.googleMaps]
  else Option.none

/-- `types.ThinkingConfig` as used in app.py line 177-179. -/
structure ThinkingConfig where
  thinking_budget : Nat
  deriving DecidableEq

/-- The persona selector (app.py lines 37-45): four fixed options. -/
inductive Persona where
  | helpfulAssistant
  | codeExpert
  | creativeWriter
  | criticalThinker
  deriving DecidableEq

/-- The `persona_map` dictionary (app.py lines 47-64). -/
def persona_map : Persona → String
  | Persona.helpfulAssistant =>
      "You are a friendly, helpful AI assistant. Provide concise and accurate answers."
  | Persona.codeExpert =>
      "You are a senior software engineer. Provide clean, optimized code snippets and architectural advice."
  | Persona.creativeWriter =>
      "You are a Pulitzer Prize–winning author. Use evocative language and storytelling."
  | Persona.criticalThinker =>
      "You are a philosopher and scientist. Break down problems logically and explore multiple perspectives."

/-- `types.GenerateContentConfig` as assembled in app.py lines 173-183. -/
structure GenerateContentConfig where
  system_instruction : String
  tools : Option (List Tool)
  thinking_config : Option ThinkingConfig
  deriving DecidableEq

/-- Generation-config assembly, app.py lines 173-183: the thinking config is
attached exactly when `use_pro and grounding == "None"`. -/
def build_config (persona : Persona) (use_pro : Bool) (grounding : String) :
    GenerateContentConfig :=
  { system_instruction := persona_map persona
    tools := build_tools grounding
    thinking_config :=
      if use_pro = true ∧ grounding = "None" then Option.some ⟨4000⟩ else Option.none }

/-- An uploaded file: name, raw bytes, declared media type. -/
structure Attachment where
  name : String
  data : List Nat
  mime_type : String
  deriving DecidableEq

/-- A request content part (app.py lines 153-168): either
`Part.from_bytes(data=..., mime_type=...)` or `Part.from_text(text=...)`. -/
inductive ReqPart where
  | fromBytes (data : List Nat) (mime_type : String)
  | fromText (text : String)
  deriving DecidableEq

/-- Content-part assembly, app.py lines 153-168: the bytes part is appended
first when a file is uploaded, then the text part is always appended. -/
def build_parts (uploaded_file : Option Attachment) (prompt : String) : List ReqPart :=
  let parts : List ReqPart :=
    match uploaded_file with
    | Option.some f => [ReqPart.fromBytes f.data f.mime_type]
    | Option.none => []
  parts ++ [ReqPart.fromText prompt]

/-- Model selection, app.py lines 127-131. -/
def model_id (use_pro : Bool) : String :=
  if use_pro then "gemini-3-pro-preview" else "gemini-3-flash-preview"

/-- The single outgoing request (app.py lines 186-190). -/
structure Request where
  model : String
  contents : List ReqPart
  config : GenerateContentConfig
  deriving DecidableEq

/-- One chat turn stored in `st.session_state.messages`: a dict with `role`,
`content`, and (for assistant turns) `urls`; user messages carry no `urls`
key, so `msg.get("urls")` yields `None`, modelled as the `none` field value. -/
structure Turn where
  role : String
  content : String
  urls : Option (List String)
  deriving DecidableEq

/-- The user turn appended at app.py lines 113-115. -/
def userTurn (prompt : String) : Turn :=
  { role := "user", content := prompt, urls := Option.none }

/-- The assistant turn appended at app.py lines 234-240. -/
def assistantTurn (response : Response) : Turn :=
  { role := "assistant", content := text_output response, urls := stored_urls response }

/-- Result of one chat-input handler run: the session store afterwards, the
request that was assembled, and the `st.error` text if the except branch ran. -/
structure HandlerResult where
  messages : List Turn
  request : Request
  errorShown : Option String
  deriving DecidableEq

/-- The chat-input handler, app.py lines 111-243. The user message is appended
first; the request is assembled; the provider call together with the rest of
the try block is abstracted by `outcome` (an exception raised anywhere inside
the try body — the call or the subsequent extraction — is the `error` case).
On success the extraction runs and one assistant turn is appended; on an
exception the handler shows `st.error(f"Error: {e}")` and appends nothing
further. The handler is total: no exception escapes it. -/
def handle_prompt (messages : List Turn) (prompt : String)
    (uploaded_file : Option Attachment) (persona : Persona)
    (use_pro : Bool) (grounding : String)
    (outcome : Except String Response) : HandlerResult :=
  let messages := messages ++ [userTurn prompt]
  let req : Request :=
    { model := model_id use_pro
      contents := build_parts uploaded_file prompt
      config := build_config persona use_pro grounding }
  match outcome with
  | Except.error e =>
      { messages := messages, request := req, errorShown := Option.some ("Error: " ++ e) }
  | Except.ok response =>
      { messages := messages ++ [assistantTurn response]
        request := req
        errorShown := Option.none }

/-- The Reset Chat button handler, app.py lines 80-82:
`st.session_state.messages = []`. -/
def reset_chat (_messages : List Turn) : List Turn := []

/-- One submission: the UI inputs of one turn plus the provider response. -/
structure Submission where
  prompt : String
  uploaded_file : Option Attachment
  persona : Persona
  use_pro : Bool
  grounding : String
  response : Response
  deriving DecidableEq

/-- Run one successful submission against the session store. -/
def submitOne (messages : List Turn) (s : Submission) : List Turn :=
  (handle_prompt messages s.prompt s.uploaded_file s.persona s.use_pro s.grounding
    (Except.ok s.response)).messages

/-- Run a sequence of successful submissions against the session store. -/
def runSubmissions (messages : List Turn) (subs : List Submission) : List Turn :=
  subs.foldl submitOne messages

/-- Number of assistant turns in a session store. -/
def assistantCount (messages : List Turn) : Nat :=
  messages.countP (fun t => t.role == "assistant")

/-! ## Spec-side descriptions, for the refinement claims -/

/-- In-order concatenation of a list of strings. -/
def concatAll (l : List String) : String := l.foldr (fun a b => a ++ b) ""

/-- Spec phrasing: the text fragments of the first candidate's content parts. -/
def specFragments (response : Response) : List String :=
  (match response.candidates with
   | Option.some (c :: _) =>
       match c.content with
       | Option.some content => content.parts.getD []
       | Option.none => []
   | _ => []).filterMap Part.text

/-- Spec phrasing: the in-order concatenation of all non-empty text fragments
of the first candidate's content parts. -/
def specConcat (response : Response) : String :=
  concatAll ((specFragments response).filter (fun s => !s.isEmpty))

/-- Spec phrasing: the grounding chunks of the first candidate. -/
def chunksOf (response : Response) : List GroundingChunk :=
  match response.candidates with
  | Option.some (c :: _) =>
      match c.grounding_metadata with
      | Option.some gm => gm.grounding_chunks.getD []
      | Option.none => []
  | _ => []

/-- Spec phrasing: the URIs contributed by one chunk — its web URI if present,
then its maps URI if present. -/
def specChunkUris (chunk : GroundingChunk) : List String :=
  (match chunk.web with
   | Option.some w =>
       match w.uri with
       | Option.some u => if u.isEmpty then [] else [u]
       | Option.none => []
   | Option.none => []) ++
  (match chunk.maps with
   | Option.some m =>
       match m.uri with
       | Option.some u => if u.isEmpty then [] else [u]
       | Option.none => []
   | Option.none => [])

/-- Spec phrasing: the URIs obtained by scanning the first candidate's
grounding chunks in order. -/
def specUris (response : Response) : List String :=
  (chunksOf response).flatMap specChunkUris

/-! ## Concrete responses used as examples -/

/-- A response with two text-bearing parts, as in the spec's example. -/
def helloResponse : Response :=
  { candidates := Option.some
      [ { content := Option.some
            { parts := Option.some [⟨Option.some "Hello, "⟩, ⟨Option.some "world!"⟩] }
          grounding_metadata := Option.none } ] }

/-- A response with no text-bearing parts. -/
def blankResponse : Response :=
  { candidates := Option.some
      [ { content := Option.some { parts := Option.some [⟨Option.none⟩, ⟨Option.some ""⟩] }
          grounding_metadata := Option.none } ] }

/-- The spec's grounding example: two identical web URIs and one maps URI. -/
def exampleChunks : List GroundingChunk :=
  [ { web := Option.some { uri := Option.some "https://a.com/x" }, maps := Option.none }
  , { web := Option.some { uri := Option.some "https://a.com/x" }, maps := Option.none }
  , { web := Option.none, maps := Option.some { uri := Option.some "https://b.com/y" } } ]

/-- A response carrying the spec's grounding-chunk example. -/
def exampleGroundingResponse : Response :=
  { candidates := Option.some
      [ { content := Option.none
          grounding_metadata := Option.some { grounding_chunks := Option.some exampleChunks } } ] }

/-! ## Helper lemmas -/

theorem concatAll_cons (a : String) (l : List String) :
    concatAll (a :: l) = a ++ concatAll l := rfl

theorem concatAll_append (l1 l2 : List String) :
    concatAll (l1 ++ l2) = concatAll l1 ++ concatAll l2 := by
  induction l1 with
  | nil => simp [concatAll, String.empty_append]
  | cons a t ih => simp [concatAll_cons, ih, String.append_assoc]

theorem textStep_eq (s : String) (p : Part) :
    textStep s p = s ++ concatAll (([p].filterMap Part.text).filter (fun t => !t.isEmpty)) := by
  cases p with
  | mk t =>
    cases t with
    | none => simp [textStep, concatAll]
    | some u =>
        by_cases hu : u.isEmpty <;>
          simp [textStep, concatAll, hu, String.append_empty]

theorem foldl_textStep (ps : List Part) (s : String) :
    ps.foldl textStep s = s ++ concatAll ((ps.filterMap Part.text).filter (fun t => !t.isEmpty)) := by
  induction ps generalizing s with
  | nil => simp [concatAll, String.append_empty]
  | cons p rest ih =>
      cases p with
      | mk t =>
        cases t with
        | none => simpa [textStep] using ih s
        | some u =>
            by_cases hu : u.isEmpty
            · simpa [textStep, hu] using ih s
            · simp only [List.foldl_cons, textStep, hu, if_neg, Bool.not_eq_true]
              rw [ih (s ++ u)]
              simp [hu, concatAll, String.append_assoc]

theorem chunkStep_eq (acc : List String) (c : GroundingChunk) :
    chunkStep acc c = acc ++ specChunkUris c := by
  cases c with
  | mk w m =>
    cases w with
    | none =>
        cases m with
        | none => simp [chunkStep, specChunkUris]
        | some mm =>
            cases hm : mm.uri with
            | none => simp [chunkStep, specChunkUris, hm]
            | some u => by_cases hu : u.isEmpty <;> simp [chunkStep, specChunkUris, hm, hu]
    | some ww =>
        cases hw : ww.uri with
        | none =>
            cases m with
            | none => simp [chunkStep, specChunkUris, hw]
            | some mm =>
                cases hm : mm.uri with
                | none => simp [chunkStep, specChunkUris, hw, hm]
                | some u => by_cases hu : u.isEmpty <;> simp [chunkStep, specChunkUris, hw, hm, hu]
        | some v =>
            by_cases hv : v.isEmpty
            · cases m with
              | none => simp [chunkStep, specChunkUris, hw, hv]
              | some mm =>
                  cases hm : mm.uri with
                  | none => simp [chunkStep, specChunkUris, hw, hv, hm]
                  | some u =>
                      by_cases hu : u.isEmpty <;>
                        simp [chunkStep, specChunkUris, hw, hv, hm, hu]
            · cases m with
              | none => simp [chunkStep, specChunkUris, hw, hv]
              | some mm =>
                  cases hm : mm.uri with
                  | none => simp [chunkStep, specChunkUris, hw, hv, hm]
                  | some u =>
                      by_cases hu : u.isEmpty <;>
                        simp [chunkStep, specChunkUris, hw, hv, hm, hu]

theorem foldl_chunkStep (chunks : List GroundingChunk) (acc : List String) :
    chunks.foldl chunkStep acc = acc ++ chunks.flatMap specChunkUris := by
  induction chunks generalizing acc with
  | nil => simp
  | cons c rest ih =>
      simp only [List.foldl_cons, List.flatMap_cons, ih, chunkStep_eq, List.append_assoc]

theorem extract_urls_eq_specUris (r : Response) : extract_urls r = specUris r := by
  cases r with
  | mk cand =>
    cases cand with
    | none => simp [extract_urls, specUris, chunksOf]
    | some cs =>
        cases cs with
        | nil => simp [extract_urls, specUris, chunksOf]
        | cons c rest =>
            cases c with
            | mk ct gm =>
              cases gm with
              | none => simp [extract_urls, specUris, chunksOf]
              | some g =>
                  cases g with
                  | mk chs =>
                    cases chs with
                    | none => simp [extract_urls, specUris, chunksOf]
                    | some l =>
                        cases l with
                        | nil => simp [extract_urls, specUris, chunksOf]
                        | cons ch tl =>
                            simp [extract_urls, specUris, chunksOf,
                              foldl_chunkStep, chunkStep_eq]

theorem text_output_eq_spec (r : Response) :
    text_output r = if specConcat r = "" then placeholderText else specConcat r := by
  cases r with
  | mk cand =>
    have key :
        (match (⟨cand⟩ : Response).candidates with
          | Option.some (c :: _) =>
              match c.content with
              | Option.some content =>
                  match content.parts with
                  | Option.some ps => if ps.isEmpty then "" else ps.foldl textStep ""
                  | Option.none => ""
              | Option.none => ""
          | _ => "") = specConcat ⟨cand⟩ := by
      cases cand with
      | none => simp [specConcat, specFragments, concatAll]
      | some cs =>
          cases cs with
          | nil => simp [specConcat, specFragments, concatAll]
          | cons c rest =>
              cases c with
              | mk ct gm =>
                cases ct with
                | none => simp [specConcat, specFragments, concatAll]
                | some content =>
                    cases content with
                    | mk ps =>
                      cases ps with
                      | none => simp [specConcat, specFragments, concatAll]
                      | some l =>
                          cases l with
                          | nil => simp [specConcat, specFragments, concatAll]
                          | cons p tl =>
                              simp only [specConcat, specFragments, foldl_textStep,
                                String.empty_append, textStep_eq, List.isEmpty_cons,
                                Bool.false_eq_true, if_false, Option.getD_some]
    simp only [text_output, key]
    by_cases h : specConcat ⟨cand⟩ = "" <;>
      simp [h, String.isEmpty_iff]

theorem handle_ok_messages (ms : List Turn) (prompt : String) (up : Option Attachment)
    (p : Persona) (pro : Bool) (g : String) (r : Response) :
    (handle_prompt ms prompt up p pro g (Except.ok r)).messages
      = ms ++ [userTurn prompt, assistantTurn r] := by
  simp [handle_prompt]

theorem runSubmissions_eq (subs : List Submission) (ms : List Turn) :
    runSubmissions ms subs
      = ms ++ subs.flatMap (fun s => [userTurn s.prompt, assistantTurn s.response]) := by
  induction subs generalizing ms with
  | nil => simp [runSubmissions]
  | cons s rest ih =>
      have step : runSubmissions ms (s :: rest) = runSubmissions (submitOne ms s) rest := rfl
      rw [step, ih, submitOne, handle_ok_messages]
      simp [List.flatMap_cons, List.append_assoc]

theorem flatMap_turns_length (subs : List Submission) :
    (subs.flatMap (fun s => [userTurn s.prompt, assistantTurn s.response])).length
      = 2 * subs.length := by
  induction subs with
  | nil => simp
  | cons s rest ih =>
      simp only [List.flatMap_cons, List.length_append, List.length_cons, ih,
        List.length_nil, List.length_cons]
      omega

theorem flatMap_turns_roles (subs : List Submission) :
    (subs.flatMap (fun s => [userTurn s.prompt, assistantTurn s.response])).map Turn.role
      = subs.flatMap (fun _ => ["user", "assistant"]) := by
  induction subs with
  | nil => rfl
  | cons s rest ih =>
      simp only [List.flatMap_cons, List.map_append, ih]
      rfl

/-! ## Claims -/

/-- C1: the extracted text equals the in-order concatenation of all non-empty
text fragments of the first candidate's content parts, with the fixed
placeholder substituted exactly when that concatenation is empty; the
two-fragment example concatenates in order and the fragment-free example
yields the placeholder. -/
theorem extracted_text_matches_spec :
    (∀ r : Response,
        text_output r = if specConcat r = "" then placeholderText else specConcat r)
  ∧ text_output helloResponse = "Hello, world!"
  ∧ text_output blankResponse = placeholderText :=
  ⟨text_output_eq_spec, by decide, by decide⟩

/-- C2 counterexample: a failed request appends zero assistant turns, not one.
Running the handler from an empty store with a provider fault leaves the
assistant count at 0, refuting "exactly one assistant Turn is appended per
successful or failed request". -/
theorem failed_request_refutes_one_assistant_per_request :
    ¬ (assistantCount (handle_prompt [] "hi" Option.none Persona.helpfulAssistant
          false "None" (Except.error "boom")).messages
        = assistantCount [] + 1) := by decide

/-- C2 (amended): exactly one assistant Turn is appended per successful
request, and zero assistant Turns are appended per failed request. -/
theorem one_assistant_turn_iff_success (ms : List Turn) (prompt : String)
    (up : Option Attachment) (p : Persona) (pro : Bool) (g : String)
    (r : Response) (e : String) :
    assistantCount (handle_prompt ms prompt up p pro g (Except.ok r)).messages
        = assistantCount ms + 1
  ∧ assistantCount (handle_prompt ms prompt up p pro g (Except.error e)).messages
        = assistantCount ms := by
  constructor <;>
    simp [handle_prompt, assistantCount, List.countP_append, List.countP_cons,
      userTurn, assistantTurn]

/-- C3: on a provider fault (an exception anywhere inside the try block: the
call or the extraction) the handler appends only the user's own message, shows
the error text, and returns normally — the fault is consumed at the point of
call and does not propagate. -/
theorem provider_fault_appends_nothing (ms : List Turn) (prompt : String)
    (up : Option Attachment) (p : Persona) (pro : Bool) (g : String) (e : String) :
    (handle_prompt ms prompt up p pro g (Except.error e)).messages = ms ++ [userTurn prompt]
  ∧ (handle_prompt ms prompt up p pro g (Except.error e)).errorShown
      = Option.some ("Error: " ++ e) := ⟨rfl, rfl⟩

/-- C4: the assembled config carries a thinking config iff the reasoning model
is selected and grounding is "None"; in particular, with Google Search
grounding and the reasoning model no thinking config is attached. -/
theorem thinking_budget_iff_no_grounding (p : Persona) (pro : Bool) (g : String) :
    ((build_config p pro g).thinking_config ≠ Option.none ↔ pro = true ∧ g = "None")
  ∧ (build_config p true "Google Search").thinking_config = Option.none := by
  constructor
  · by_cases h : pro = true ∧ g = "None" <;> simp [build_config, h]
  · simp [build_config]

/-- C5: the extracted URL list equals the URIs obtained by scanning the first
candidate's grounding chunks in order (web URI then maps URI per chunk), its
deduplication is duplicate-free and membership-equal to that scan, and the
spec's three-chunk example yields exactly two members after deduplication. -/
theorem urls_deduplicated_spec :
    (∀ r : Response,
        extract_urls r = specUris r
      ∧ ((extract_urls r).dedup).Nodup
      ∧ (∀ u, u ∈ (extract_urls r).dedup ↔ u ∈ specUris r))
  ∧ ((extract_urls exampleGroundingResponse).dedup).length = 2 := by
  refine ⟨fun r => ⟨extract_urls_eq_specUris r, List.nodup_dedup _, fun u => ?_⟩, by decide⟩
  rw [List.mem_dedup, extract_urls_eq_specUris]

/-- C6: with an attachment the content-part list is exactly the bytes part
followed by the text part; without one it is the single text part. -/
theorem content_parts_order (prompt : String) (f : Attachment) :
    build_parts (Option.some f) prompt
        = [ReqPart.fromBytes f.data f.mime_type, ReqPart.fromText prompt]
  ∧ build_parts Option.none prompt = [ReqPart.fromText prompt] := ⟨rfl, rfl⟩

/-- C7: starting from an empty store, after any sequence of N successful
submissions the store holds exactly 2N turns whose roles alternate as one
user turn followed by one assistant turn per submission. -/
theorem session_grows_two_per_submission (subs : List Submission) :
    (runSubmissions [] subs).length = 2 * subs.length
  ∧ (runSubmissions [] subs).map Turn.role
      = subs.flatMap (fun _ => ["user", "assistant"]) := by
  rw [runSubmissions_eq]
  exact ⟨by simpa using flatMap_turns_length subs, by simpa using flatMap_turns_roles subs⟩

/-- C8: resetting yields an empty session store regardless of prior content. -/
theorem reset_always_empties (ms : List Turn) : reset_chat ms = [] := rfl

/-- C9: the assistant turn appended on success stores `none` in its urls field
exactly when zero grounding URLs were extracted; otherwise it stores a
non-empty duplicate-free collection membership-equal to the extracted URLs —
an empty collection is never stored. -/
theorem assistant_urls_none_iff_empty (ms : List Turn) (prompt : String)
    (up : Option Attachment) (p : Persona) (pro : Bool) (g : String) (r : Response) :
    ((handle_prompt ms prompt up p pro g (Except.ok r)).messages.getLast?
        = Option.some (assistantTurn r))
  ∧ ((assistantTurn r).urls = Option.none ↔ extract_urls r = [])
  ∧ (∀ l, (assistantTurn r).urls = Option.some l →
        l ≠ [] ∧ l.Nodup ∧ ∀ u, u ∈ l ↔ u ∈ extract_urls r) := by
  refine ⟨?_, ?_, ?_⟩
  · simp [handle_prompt, List.getLast?_concat]
  · by_cases h : extract_urls r = [] <;> simp [assistantTurn, stored_urls, h]
  · intro l hl
    by_cases h : extract_urls r = []
    · simp [assistantTurn, stored_urls, h] at hl
    · simp [assistantTurn, stored_urls, h] at hl
      subst hl
      refine ⟨by simpa [List.dedup_eq_nil] using h, List.nodup_dedup _,
        fun u => List.mem_dedup⟩

/-- Witness for C9: the grounding example stores a two-element, non-empty,
duplicate-free URL collection. -/
theorem assistant_urls_none_iff_empty_witness :
    (["https://a.com/x", "https://b.com/y"] : List String) ≠ []
  ∧ (["https://a.com/x", "https://b.com/y"] : List String).Nodup
  ∧ ∀ u, u ∈ (["https://a.com/x", "https://b.com/y"] : List String)
        ↔ u ∈ extract_urls exampleGroundingResponse :=
  (assistant_urls_none_iff_empty [] "hi" Option.none Persona.helpfulAssistant false
      "None" exampleGroundingResponse).2.2 _ (by decide)

/-- C10: whenever a thinking config is attached to the assembled request, its
budget is exactly the fixed constant 4000. -/
theorem thinking_budget_is_4000 (p : Persona) (pro : Bool) (g : String)
    (tc : ThinkingConfig)
    (h : (build_config p pro g).thinking_config = Option.some tc) :
    tc.thinking_budget = 4000 := by
  by_cases hc : pro = true ∧ g = "None"
  · simp [build_config, hc] at h
    simp [← h]
  · simp [build_config, hc] at h

/-- Witness for C10: with the reasoning model and no grounding, the attached
thinking config has budget 4000. -/
theorem thinking_budget_is_4000_witness :
    (ThinkingConfig.mk 4000).thinking_budget = 4000 :=
  thinking_budget_is_4000 Persona.helpfulAssistant true "None" ⟨4000⟩ (by decide)

end App
